import Mathlib

/-!
Verification development for the `mail-receiver` repository (Go).

Each Go package is shallow-embedded as Lean definitions:

* `push`      — `push/push.go` (`Pusher`, `Push`, `BuildMessageContent`)
* `imap`      — `imap/client.go` and `imap/idle.go` (IMAP client wrapper,
                IDLE monitoring, message fetch, read-flag store)
* `receiver`  — `receiver/receiver.go` (HTML stripping, the per-account
                monitor loop, fetch-and-process, error handling)

External collaborators (the network, the go-imap / go-message libraries,
timers) are modelled as explicit oracle values passed into the embedded
functions: each oracle field records the outcome the external call would
produce, and the embedding reproduces the Go control flow on top of it.
Log output, HTTP calls and flag stores are recorded as explicit events so
that theorems can speak about which side effects occur and in which order.
-/

namespace MailReceiver

/-- Go `error` values, abstracted to their message text. -/
abbrev GoError := String

deriving instance DecidableEq for Except

/-! ## Package `push` (file `push/push.go`)

Here `Pusher.url` is the configured delivery endpoint; an empty string
means delivery is disabled.  The HTTP transport (`http.Client.PostForm`)
is an external collaborator, modelled by the oracle `PostFormResult`:
either the request errored, or it returned a response with a status code. -/

/-- Outcome of the external `http.Client.PostForm` call. -/
inductive PostFormResult where
  | netError (e : GoError)
  | response (statusCode : Nat)
deriving DecidableEq, Repr

/-- The `push.Pusher` struct (the `http.Client` field is the transport
oracle supplied at call time, so it is not stored). -/
structure Pusher where
  url : String
  accountName : String
deriving DecidableEq, Repr

/-- Constructor `push.NewPusher`. -/
def NewPusher (url accountName : String) : Pusher :=
  { url := url, accountName := accountName }

/-- Method `push.Pusher.Push`, returning `(delivered, err)`.  Mirrors the
Go body: empty URL short-circuits to `(false, nil)`; a transport error
yields `(false, wrapped error)`; status 200 yields `(true, nil)`; any
other status yields `(false, nil)`. -/
def Pusher.Push (p : Pusher) (net : PostFormResult) (title msg : String) :
    Bool × Option GoError :=
  if p.url = "" then
    (false, none)
  else
    match net with
    | .netError e => (false, some ("推送请求失败: " ++ e))
    | .response statusCode =>
        if statusCode = 200 then (true, none) else (false, none)

/-- Function `push.BuildMessageContent`. -/
def BuildMessageContent (body receiveTime from_ : String) (to_ : List String)
    (hasAttachments : Bool) : String :=
  let content := body
  let content := if hasAttachments then
      content ++ "\n\n该邮件含有附件，请手动查看" else content
  let content := content ++ "\n\n" ++ "----------------------------\n"
  let content := content ++ "收件时间: " ++ receiveTime ++ "\n"
  let content := content ++ "发件人: " ++ from_ ++ "\n"
  match to_ with
  | [] => content
  | t0 :: rest =>
      let content := content ++ "收件人: " ++ t0 ++ "\n"
      rest.foldl (fun acc t => acc ++ "        " ++ t ++ "\n") content

/-! ## Function `stripHTML` (file `receiver/receiver.go`, lines 44–81)

The Go function applies, in order: removal of `<style …>…</style>` blocks,
removal of `<script …>…</script>` blocks, replacement of the block-level
tags `<br…>`, `</p>`, `</div>`, `</tr>`, `</li>` by a newline, removal of
every remaining `<…>` tag, HTML-entity decoding, then per-line trimming
with empty lines dropped, joined by newlines and finally trimmed.

The regexes are embedded as recursive scanners over the character list
with the same matching semantics (leftmost match; `[^>]*` scans to the
next `>`; the lazy `[\s\S]*?` scans to the nearest closing tag; the
case-insensitive flag is handled by comparing lowered characters). -/

/-- Case-insensitive character comparison (for the case-insensitive flag). -/
def charIEq (a b : Char) : Bool := a.toLower = b.toLower

/-- Test whether `l` starts with `p`, case-insensitively. -/
def startsWithCI : List Char → List Char → Bool
  | _, [] => true
  | [], _ :: _ => false
  | c :: cs, p :: ps => charIEq c p && startsWithCI cs ps

/-- Scan forward to just past the first case-insensitive occurrence of
`pat`; `none` if `pat` never occurs.  Implements the lazy `[\s\S]*?pat`. -/
def skipPastCI (pat : List Char) : List Char → Option (List Char)
  | [] => if pat = [] then some [] else none
  | c :: cs =>
      if startsWithCI (c :: cs) pat then some ((c :: cs).drop pat.length)
      else skipPastCI pat cs

/-- Consume `[^>]*>` after the tag-name prefix of `<style` / `<script`:
returns the rest after the closing `>`; `none` when no `>` occurs. -/
def skipTagRest : List Char → Option (List Char)
  | [] => none
  | c :: cs => if c = '>' then some cs else skipTagRest cs

/-- Match `(?i)name[^>]*>[\s\S]*?closePat` at the head of `l`, where
`openPre` is the literal opening prefix (`<style` or `<script`) and
`closePat` the closing tag; returns the rest after the whole block. -/
def matchRemovable (openPre closePat : List Char) (l : List Char) :
    Option (List Char) :=
  if startsWithCI l openPre then
    match skipTagRest (l.drop openPre.length) with
    | some afterOpen => skipPastCI closePat afterOpen
    | none => none
  else none

theorem startsWithCI_length : ∀ {l p : List Char},
    startsWithCI l p = true → p.length ≤ l.length := by
  intro l
  induction l with
  | nil =>
      intro p h
      cases p with
      | nil => simp
      | cons q qs => simp [startsWithCI] at h
  | cons c cs ih =>
      intro p h
      cases p with
      | nil => simp
      | cons q qs =>
          simp only [startsWithCI, Bool.and_eq_true] at h
          simpa using Nat.succ_le_succ (ih h.2)

theorem skipTagRest_lt : ∀ {l r : List Char},
    skipTagRest l = some r → r.length < l.length := by
  intro l
  induction l with
  | nil => intro r h; simp [skipTagRest] at h
  | cons c cs ih =>
      intro r h
      rw [skipTagRest] at h
      split at h
      · injection h with h; subst h; simp
      · exact Nat.lt_trans (ih h) (by simp)

theorem skipPastCI_le : ∀ {pat l r : List Char},
    skipPastCI pat l = some r → r.length ≤ l.length := by
  intro pat l
  induction l with
  | nil =>
      intro r h
      rw [skipPastCI] at h
      split at h
      · injection h with h; subst h; simp
      · exact absurd h (by simp)
  | cons c cs ih =>
      intro r h
      rw [skipPastCI] at h
      split at h
      · injection h with h; subst h
        simp only [List.length_drop]
        omega
      · exact Nat.le_trans (ih h) (by simp)

theorem matchRemovable_lt {openPre closePat l r : List Char}
    (h : matchRemovable openPre closePat l = some r) : r.length < l.length := by
  rw [matchRemovable] at h
  split at h
  · split at h
    · have h1 := skipTagRest_lt (by assumption)
      have h2 := skipPastCI_le h
      have h3 : (l.drop openPre.length).length ≤ l.length := by
        simp only [List.length_drop]; omega
      omega
    · exact absurd h (by simp)
  · exact absurd h (by simp)

/-- Remove every `(?i)<style[^>]*>[\s\S]*?</style>`-shaped block
(`regexp.ReplaceAllString(html, "")`), fuelled so that the recursion is
structural (each step strictly shortens the text, so fuel equal to the
text length never runs out — `removeBlocksF_congr`).  Positions where
the pattern starts but cannot complete are left as-is, matching regex
semantics. -/
def removeBlocksF (openPre closePat : List Char) : Nat → List Char → List Char
  | _, [] => []
  | 0, l => l
  | fuel + 1, c :: cs =>
      match matchRemovable openPre closePat (c :: cs) with
      | some afterClose => removeBlocksF openPre closePat fuel afterClose
      | none => c :: removeBlocksF openPre closePat fuel cs

/-- Entry point with sufficient fuel. -/
def removeBlocks (openPre closePat : List Char) (l : List Char) : List Char :=
  removeBlocksF openPre closePat l.length l

theorem removeBlocksF_congr (openPre closePat : List Char) :
    ∀ (fuel : Nat), ∀ (fuel' : Nat) (l : List Char),
      l.length ≤ fuel → l.length ≤ fuel' →
      removeBlocksF openPre closePat fuel l =
        removeBlocksF openPre closePat fuel' l := by
  intro fuel
  induction fuel with
  | zero =>
      intro fuel' l h _
      have : l = [] := List.eq_nil_of_length_eq_zero (Nat.le_zero.mp h)
      subst this
      cases fuel' <;> rfl
  | succ f ih =>
      intro fuel' l h h'
      cases l with
      | nil => cases fuel' <;> rfl
      | cons c cs =>
          cases fuel' with
          | zero => simp at h'
          | succ f' =>
              simp only [removeBlocksF]
              cases hm : matchRemovable openPre closePat (c :: cs) with
              | some afterClose =>
                  have hlt := matchRemovable_lt hm
                  simp only [List.length_cons] at h h' hlt
                  exact ih f' afterClose (by omega) (by omega)
              | none =>
                  simp only [List.length_cons] at h h'
                  rw [ih f' cs (by omega) (by omega)]

/-- Match `(?i)<br\s*/?>` at the head: `<br`, whitespace, an optional `/`,
then `>`; returns the rest after the match. -/
def matchBrTag (l : List Char) : Option (List Char) :=
  if startsWithCI l ['<', 'b', 'r'] then
    match (l.drop 3).dropWhile (fun c => c = ' ' || c = '\t' || c = '\n' || c = '\r') with
    | '/' :: '>' :: r => some r
    | '>' :: r => some r
    | _ => none
  else none

/-- Match one alternative of `(?i)<br\s*/?>|</p>|</div>|</tr>|</li>` at the
head; returns the rest after the matched text. -/
def matchBlockTag (l : List Char) : Option (List Char) :=
  match matchBrTag l with
  | some r => some r
  | none =>
      if startsWithCI l ['<', '/', 'p', '>'] then some (l.drop 4)
      else if startsWithCI l ['<', '/', 'd', 'i', 'v', '>'] then some (l.drop 6)
      else if startsWithCI l ['<', '/', 't', 'r', '>'] then some (l.drop 5)
      else if startsWithCI l ['<', '/', 'l', 'i', '>'] then some (l.drop 5)
      else none

theorem dropWhile_length_le (p : Char → Bool) :
    ∀ l : List Char, (l.dropWhile p).length ≤ l.length := by
  intro l
  induction l with
  | nil => simp
  | cons c cs ih =>
      by_cases hc : p c
      · rw [List.dropWhile_cons_of_pos hc]
        exact Nat.le_trans ih (by simp)
      · rw [List.dropWhile_cons_of_neg hc]

theorem matchBrTag_lt {l r : List Char} (h : matchBrTag l = some r) :
    r.length < l.length := by
  rw [matchBrTag] at h
  split at h
  · have h3 : (['<', 'b', 'r'] : List Char).length ≤ l.length :=
      startsWithCI_length (by assumption)
    simp only [List.length_cons, List.length_nil] at h3
    split at h
    · injection h with h; subst h
      have hd := dropWhile_length_le
        (fun c => c = ' ' || c = '\t' || c = '\n' || c = '\r') (l.drop 3)
      rw [show ((l.drop 3).dropWhile _) = _ from by assumption] at hd
      simp only [List.length_cons, List.length_drop] at hd
      omega
    · injection h with h; subst h
      have hd := dropWhile_length_le
        (fun c => c = ' ' || c = '\t' || c = '\n' || c = '\r') (l.drop 3)
      rw [show ((l.drop 3).dropWhile _) = _ from by assumption] at hd
      simp only [List.length_cons, List.length_drop] at hd
      omega
    · exact absurd h (by simp)
  · exact absurd h (by simp)

theorem matchBlockTag_lt {l r : List Char} (h : matchBlockTag l = some r) :
    r.length < l.length := by
  rw [matchBlockTag] at h
  split at h
  · injection h with h; subst h
    exact matchBrTag_lt (by assumption)
  · split at h
    · injection h with h; subst h
      have := startsWithCI_length (l := l) (by assumption)
      simp only [List.length_drop]
      simp only [List.length_cons, List.length_nil] at this
      omega
    · split at h
      · injection h with h; subst h
        have := startsWithCI_length (l := l) (by assumption)
        simp only [List.length_drop]
        simp only [List.length_cons, List.length_nil] at this
        omega
      · split at h
        · injection h with h; subst h
          have := startsWithCI_length (l := l) (by assumption)
          simp only [List.length_drop]
          simp only [List.length_cons, List.length_nil] at this
          omega
        · split at h
          · injection h with h; subst h
            have := startsWithCI_length (l := l) (by assumption)
            simp only [List.length_drop]
            simp only [List.length_cons, List.length_nil] at this
            omega
          · exact absurd h (by simp)

/-- Replace every block-level tag by a newline
(`regexp.ReplaceAllString(text, "\n")`), fuelled like `removeBlocksF`. -/
def blockTagsToNewlineF : Nat → List Char → List Char
  | _, [] => []
  | 0, l => l
  | fuel + 1, c :: cs =>
      match matchBlockTag (c :: cs) with
      | some rest => '\n' :: blockTagsToNewlineF fuel rest
      | none => c :: blockTagsToNewlineF fuel cs

/-- Entry point with sufficient fuel. -/
def blockTagsToNewline (l : List Char) : List Char :=
  blockTagsToNewlineF l.length l

theorem blockTagsToNewlineF_congr :
    ∀ (fuel : Nat), ∀ (fuel' : Nat) (l : List Char),
      l.length ≤ fuel → l.length ≤ fuel' →
      blockTagsToNewlineF fuel l = blockTagsToNewlineF fuel' l := by
  intro fuel
  induction fuel with
  | zero =>
      intro fuel' l h _
      have : l = [] := List.eq_nil_of_length_eq_zero (Nat.le_zero.mp h)
      subst this
      cases fuel' <;> rfl
  | succ f ih =>
      intro fuel' l h h'
      cases l with
      | nil => cases fuel' <;> rfl
      | cons c cs =>
          cases fuel' with
          | zero => simp at h'
          | succ f' =>
              simp only [blockTagsToNewlineF]
              cases hm : matchBlockTag (c :: cs) with
              | some rest =>
                  have hlt := matchBlockTag_lt hm
                  simp only [List.length_cons] at h h' hlt
                  simp [ih f' rest (by omega) (by omega)]
              | none =>
                  simp only [List.length_cons] at h h'
                  simp [ih f' cs (by omega) (by omega)]

/-- Remove every `<[^>]*>` occurrence (`htmlTagRegex.ReplaceAllString`),
fuelled like `removeBlocksF`.  A `<` with no subsequent `>` does not
match and stays. -/
def removeAllTagsF : Nat → List Char → List Char
  | _, [] => []
  | 0, l => l
  | fuel + 1, c :: cs =>
      if c = '<' then
        match skipTagRest cs with
        | some rest => removeAllTagsF fuel rest
        | none => c :: removeAllTagsF fuel cs
      else c :: removeAllTagsF fuel cs

/-- Entry point with sufficient fuel. -/
def removeAllTags (l : List Char) : List Char :=
  removeAllTagsF l.length l

theorem removeAllTagsF_congr :
    ∀ (fuel : Nat), ∀ (fuel' : Nat) (l : List Char),
      l.length ≤ fuel → l.length ≤ fuel' →
      removeAllTagsF fuel l = removeAllTagsF fuel' l := by
  intro fuel
  induction fuel with
  | zero =>
      intro fuel' l h _
      have : l = [] := List.eq_nil_of_length_eq_zero (Nat.le_zero.mp h)
      subst this
      cases fuel' <;> rfl
  | succ f ih =>
      intro fuel' l h h'
      cases l with
      | nil => cases fuel' <;> rfl
      | cons c cs =>
          cases fuel' with
          | zero => simp at h'
          | succ f' =>
              simp only [removeAllTagsF]
              by_cases hc : c = '<'
              · simp only [hc, if_true]
                cases hm : skipTagRest cs with
                | some rest =>
                    have hlt := skipTagRest_lt hm
                    simp only [List.length_cons] at h h'
                    exact ih f' rest (by omega) (by omega)
                | none =>
                    simp only [List.length_cons] at h h'
                    rw [ih f' cs (by omega) (by omega)]
              · simp only [hc, if_false]
                simp only [List.length_cons] at h h'
                rw [ih f' cs (by omega) (by omega)]

/-- Go `strings.ReplaceAll text entity replacement`, over character lists
(the entity patterns are never empty), fuelled like `removeBlocksF`. -/
def replaceAllSubF (pat repl : List Char) : Nat → List Char → List Char
  | _, [] => []
  | 0, l => l
  | fuel + 1, c :: cs =>
      if pat ≠ [] ∧ pat.isPrefixOf (c :: cs) = true then
        repl ++ replaceAllSubF pat repl fuel ((c :: cs).drop pat.length)
      else c :: replaceAllSubF pat repl fuel cs

/-- Entry point with sufficient fuel. -/
def replaceAllSub (pat repl : List Char) (l : List Char) : List Char :=
  replaceAllSubF pat repl l.length l

theorem replaceAllSubF_congr (pat repl : List Char) :
    ∀ (fuel : Nat), ∀ (fuel' : Nat) (l : List Char),
      l.length ≤ fuel → l.length ≤ fuel' →
      replaceAllSubF pat repl fuel l = replaceAllSubF pat repl fuel' l := by
  intro fuel
  induction fuel with
  | zero =>
      intro fuel' l h _
      have : l = [] := List.eq_nil_of_length_eq_zero (Nat.le_zero.mp h)
      subst this
      cases fuel' <;> rfl
  | succ f ih =>
      intro fuel' l h h'
      cases l with
      | nil => cases fuel' <;> rfl
      | cons c cs =>
          cases fuel' with
          | zero => simp at h'
          | succ f' =>
              simp only [replaceAllSubF]
              by_cases hc : pat ≠ [] ∧ pat.isPrefixOf (c :: cs) = true
              · rw [if_pos hc, if_pos hc]
                have hp : 0 < pat.length := List.length_pos.mpr hc.1
                simp only [List.length_cons] at h h'
                rw [ih f' ((c :: cs).drop pat.length)
                  (by simp only [List.length_drop, List.length_cons]; omega)
                  (by simp only [List.length_drop, List.length_cons]; omega)]
              · rw [if_neg hc, if_neg hc]
                simp only [List.length_cons] at h h'
                rw [ih f' cs (by omega) (by omega)]

/-- The `htmlEntities` table, in source order. -/
def htmlEntities : List (String × String) :=
  [("&nbsp;", " "), ("&lt;", "<"), ("&gt;", ">"), ("&amp;", "&"),
   ("&quot;", "\""), ("&apos;", "'"), ("&hellip;", "..."),
   ("&mdash;", "—"), ("&ndash;", "–")]

/-- Whitespace recognised by Go `strings.TrimSpace` (ASCII range). -/
def isSpaceChar (c : Char) : Bool :=
  c = ' ' || c = '\t' || c = '\n' || c = '\r' || c = '\x0b' || c = '\x0c'

/-- Trim leading and trailing whitespace from a character list. -/
def trimChars (l : List Char) : List Char :=
  ((l.dropWhile isSpaceChar).reverse.dropWhile isSpaceChar).reverse

/-- Split a character list on `'\n'` (Go `strings.Split(text, "\n")`). -/
def splitLines : List Char → List (List Char)
  | [] => [[]]
  | c :: cs =>
      if c = '\n' then [] :: splitLines cs
      else
        match splitLines cs with
        | [] => [[c]]
        | l :: ls => (c :: l) :: ls

/-- Function `receiver.stripHTML`. -/
def stripHTML (html : String) : String :=
  if html = "" then ""
  else
    let text := html.toList
    let text := removeBlocks "<style".toList "</style>".toList text
    let text := removeBlocks "<script".toList "</script>".toList text
    let text := blockTagsToNewline text
    let text := removeAllTags text
    let text := htmlEntities.foldl
      (fun acc p => replaceAllSub p.1.toList p.2.toList acc) text
    let lines := splitLines text
    let cleanedLines := (lines.map trimChars).filter (fun l => l ≠ [])
    let joined := List.intercalate ['\n'] cleanedLines
    String.mk (trimChars joined)

/-! ## Package `imap`: message parsing (`ParseMessage`, `parseBody`,
`formatAddress`, `decodeRFC2047`)

Here the go-message reader (`mail.CreateReader`, `NextPart`, body reads)
and the mime word decoder are external collaborators; their outcomes are
carried as oracle data inside the raw message value. -/

/-- Go `time.Time`, abstracted to an integer instant; `0` stands for the
zero time (`IsZero`). -/
abbrev GoTime := Int

/-- The go-imap `imap.Address`, together with the oracle outcome of
`mime.WordDecoder.DecodeHeader` on its personal name. -/
structure Address where
  personalName : String
  mailboxName : String
  hostName : String
  decodeOutcome : Except GoError String
deriving DecidableEq, Repr

/-- Function `imap.decodeRFC2047`: on success the decoded string with nil
error, on failure the original string with the error. -/
def decodeRFC2047 (s : String) (oracle : Except GoError String) :
    String × Option GoError :=
  match oracle with
  | .error e => (s, some e)
  | .ok d => (d, none)

/-- Function `imap.formatAddress`. -/
def formatAddress (addr : Option Address) : String :=
  match addr with
  | none => ""
  | some a =>
      let email := a.mailboxName ++ "@" ++ a.hostName
      if a.personalName ≠ "" then
        let p := decodeRFC2047 a.personalName a.decodeOutcome
        if p.2 = none ∧ p.1 ≠ "" then p.1 ++ " (" ++ email ++ ")"
        else a.personalName ++ " (" ++ email ++ ")"
      else email

/-- The go-imap `imap.Envelope` (pointer fields may be nil). -/
structure Envelope where
  subject : String
  date : GoTime
  from_ : List (Option Address)
  to_ : List (Option Address)
  cc : List (Option Address)
deriving DecidableEq, Repr

/-- A go-message part header as seen by `parseBody`: inline content (with
its content type and the outcome of reading its body) or an attachment. -/
inductive PartHeader where
  | inlineHdr (contentType : String) (bodyRead : Except GoError String)
  | attachmentHdr
deriving DecidableEq, Repr

/-- One step of `mr.NextPart()`: a part, or a read failure (EOF is the end
of the list). -/
abbrev PartResult := Except GoError PartHeader

/-- Oracle for one `msg.Body` literal: what `mail.CreateReader` and the
subsequent header and part reads would yield. -/
inductive Literal where
  | unreadable (e : GoError)
  | readable (hdrSubject : Except GoError String) (hdrDate : Except GoError GoTime)
             (parts : List PartResult)
deriving DecidableEq, Repr

/-- The `imap.EmailMessage` struct. -/
structure EmailMessage where
  uid : Nat
  seqNum : Nat
  subject : String
  from_ : List String
  to_ : List String
  cc : List String
  date : GoTime
  size : Nat
  flags : List String
  body : String
  htmlBody : String
  hasAttachments : Bool
deriving DecidableEq, Repr

/-- The go-imap `imap.Message` as consumed here: identifiers, flags,
envelope and body literals (a nil literal is skipped by `ParseMessage`). -/
structure RawMessage where
  uid : Nat
  seqNum : Nat
  size : Nat
  flags : List String
  envelope : Option Envelope
  body : List (Option Literal)
deriving DecidableEq, Repr

/-- Side effects recorded by the embedding: log lines, push HTTP calls
(with their result) and read-flag stores. -/
inductive Event where
  | logLine (s : String)
  | pushCall (title msg : String) (result : Bool × Option GoError)
  | markAsRead (uid : Nat)
deriving DecidableEq, Repr

/-- Accumulator of the part loop of `imap.parseBody`: the email being
filled in, a pending error, the log events so far, and whether the loop
returned early (a `NextPart` failure makes `parseBody` return at once). -/
structure PartsAcc where
  email : EmailMessage
  err : Option GoError
  events : List Event
  stopped : Bool
deriving Repr

/-- One iteration of the part loop of `imap.parseBody`: a `NextPart`
failure returns an error and stops the loop; a body-read failure is
logged and the part skipped; `text/plain` sets the plain body,
`text/html` the HTML body; an attachment sets the flag. -/
def partStep (accountName : String) (acc : PartsAcc) (pr : PartResult) :
    PartsAcc :=
  if acc.stopped then acc
  else
    match pr with
    | .error e =>
        { acc with err := some ("读取邮件部分失败: " ++ e), stopped := true }
    | .ok (.inlineHdr contentType bodyRead) =>
        match bodyRead with
        | .error e =>
            { acc with events := acc.events ++
                [.logLine ("[" ++ accountName ++ "] 读取邮件正文失败: " ++ e)] }
        | .ok body =>
            if contentType.startsWith "text/plain" then
              { acc with email := { acc.email with body := body } }
            else if contentType.startsWith "text/html" then
              { acc with email := { acc.email with htmlBody := body } }
            else acc
    | .ok .attachmentHdr =>
        { acc with email := { acc.email with hasAttachments := true } }

/-- The part loop of `imap.parseBody` over the whole part list (the early
return of the Go loop is the `stopped` flag freezing the accumulator). -/
def processParts (accountName : String) (email : EmailMessage)
    (parts : List PartResult) : EmailMessage × Option GoError × List Event :=
  let acc := parts.foldl (partStep accountName)
    { email := email, err := none, events := [], stopped := false }
  (acc.email, acc.err, acc.events)

/-- Function `imap.parseBody`. -/
def parseBody (lit : Literal) (email : EmailMessage) (accountName : String) :
    EmailMessage × Option GoError × List Event :=
  match lit with
  | .unreadable e => (email, some ("创建邮件读取器失败: " ++ e), [])
  | .readable hdrSubject hdrDate parts =>
      let email := match hdrSubject with
        | .ok s => if email.subject = "" then { email with subject := s } else email
        | .error _ => email
      let email := match hdrDate with
        | .ok d => if email.date = 0 then { email with date := d } else email
        | .error _ => email
      processParts accountName email parts

/-- One iteration of the body-literal loop in `imap.ParseMessage`: a nil
literal is skipped; otherwise `parseBody` runs and its error, if any, is
logged and swallowed. -/
def parseLiteralStep (accountName : String) (acc : EmailMessage × List Event)
    (lit : Option Literal) : EmailMessage × List Event :=
  match lit with
  | none => acc
  | some l =>
      let r := parseBody l acc.1 accountName
      match r.2.1 with
      | some e =>
          (r.1, acc.2 ++ r.2.2 ++
            [.logLine ("[" ++ accountName ++ "] 解析邮件正文失败: " ++ e)])
      | none => (r.1, acc.2 ++ r.2.2)

/-- Function `imap.ParseMessage`: nil message is the only error; envelope
fields are copied when present; each non-nil body literal is parsed with
`parseBody`, whose errors are logged and swallowed. -/
def ParseMessage (msg : Option RawMessage) (accountName : String) :
    Except GoError EmailMessage × List Event :=
  match msg with
  | none => (.error "消息为空", [])
  | some m =>
      let email : EmailMessage :=
        { uid := m.uid, seqNum := m.seqNum, size := m.size, flags := m.flags,
          subject := "", from_ := [], to_ := [], cc := [], date := 0,
          body := "", htmlBody := "", hasAttachments := false }
      let email := match m.envelope with
        | none => email
        | some env =>
            { email with
              subject := env.subject, date := env.date,
              from_ := env.from_.map formatAddress,
              to_ := env.to_.map formatAddress,
              cc := env.cc.map formatAddress }
      let final := m.body.foldl (parseLiteralStep accountName) (email, [])
      (.ok final.1, final.2)

/-! ## Package `imap`: client (`imap/client.go`) -/

/-- The go-imap `\Seen` flag. -/
def SeenFlag : String := "\\Seen"

/-- The go-imap mailbox status as consumed here (the message count). -/
structure MailboxStatus where
  messages : Nat
deriving DecidableEq, Repr

/-- A sequence set as built by `FetchMessages`. -/
inductive SeqSetM where
  | range (lo hi : Nat)
  | nums (ids : List Nat)
deriving DecidableEq, Repr

/-- What `FetchMessages` passed to the library `Fetch` call. -/
structure FetchIssued where
  seqset : SeqSetM
  items : List String
deriving DecidableEq, Repr

/-- The fetch item list built by `FetchMessages`: index 5 is `BODY.PEEK[]`
unless `markAsRead` replaces it by `BODY[]`. -/
def fetchItems (markAsRead : Bool) : List String :=
  let items := ["ENVELOPE", "FLAGS", "INTERNALDATE", "RFC822.SIZE", "UID",
                "BODY.PEEK[]"]
  if markAsRead then items.set 5 "BODY[]" else items

/-- Oracle for one `FetchMessages` invocation: the outcomes of the
external go-imap calls it makes. -/
structure FetchEnv where
  selectResult : Except GoError MailboxStatus
  searchResult : Except GoError (List Nat)
  fetchDelivered : List RawMessage
  fetchDone : Option GoError
deriving Repr

/-- Method `Client.SelectFolder`, wrapping the library `Select` outcome. -/
def SelectFolder (selectResult : Except GoError MailboxStatus) (folder : String) :
    Except GoError MailboxStatus :=
  match selectResult with
  | .error e => .error ("选择文件夹 " ++ folder ++ " 失败: " ++ e)
  | .ok mbox => .ok mbox

/-- The unread test of the fallback filter in `FetchMessages`: true iff no
flag equals `\Seen`. -/
def isUnreadFlags (flags : List String) : Bool := ¬ flags.contains SeenFlag

/-- Method `Client.FetchMessages`.  Returns the result and, when a
library `Fetch` was issued, the sequence set and items used. -/
def FetchMessages (env : FetchEnv) (folder : String) (limit : Nat)
    (markAsRead : Bool) :
    Except GoError (List RawMessage) × Option FetchIssued :=
  match SelectFolder env.selectResult folder with
  | .error e => (.error e, none)
  | .ok mbox =>
      if mbox.messages = 0 then (.ok [], none)
      else
        match env.searchResult with
        | .error _ =>
            let seqset :=
              if limit > 0 ∧ mbox.messages > limit then
                SeqSetM.range (mbox.messages - limit + 1) mbox.messages
              else SeqSetM.range 1 mbox.messages
            let issued : FetchIssued :=
              { seqset := seqset, items := fetchItems markAsRead }
            let result := env.fetchDelivered.filter (fun m => isUnreadFlags m.flags)
            match env.fetchDone with
            | some e =>
                (.error ("获取邮件失败（标准搜索和备用方法均失败）: " ++ e),
                 some issued)
            | none =>
                let result :=
                  if limit > 0 ∧ result.length > limit then
                    result.drop (result.length - limit)
                  else result
                (.ok result, some issued)
        | .ok ids =>
            if ids = [] then (.ok [], none)
            else
              let ids :=
                if limit > 0 ∧ ids.length > limit then
                  ids.drop (ids.length - limit)
                else ids
              let issued : FetchIssued :=
                { seqset := SeqSetM.nums ids, items := fetchItems markAsRead }
              match env.fetchDone with
              | some e => (.error ("获取邮件失败: " ++ e), some issued)
              | none => (.ok env.fetchDelivered, some issued)

/-- Method `Client.MarkAsRead`: nil inner client is an error; otherwise
the `UidStore` outcome, wrapped. -/
def MarkAsRead (connected : Bool) (storeResult : Option GoError) :
    Option GoError :=
  if connected then
    match storeResult with
    | some e => some ("标记邮件为已读失败: " ++ e)
    | none => none
  else some "客户端未连接"

/-! ## Package `imap`: IDLE monitoring (`imap/idle.go`) and the
live-or-poll primitive (`imap/client.go`)

The race inside `runIDLE` (timer vs. server update vs. the IDLE command
finishing) is modelled by an oracle saying which of the three channels
fires first; channel traffic is modelled by the list of values sent, a
receive taking the head (a closed channel yields the Go zero value). -/

/-- The `imap.IdleClient` struct (the inner go-imap-idle client is the
external collaborator and is not stored). -/
structure IdleClient where
  accountName : String
  idleTimeoutMinutes : Nat
  supportsIDLE : Bool
deriving DecidableEq, Repr

/-- Constructor `imap.NewIdleClient`. -/
def NewIdleClient (accountName : String) (idleTimeoutMinutes : Nat) : IdleClient :=
  { accountName := accountName, idleTimeoutMinutes := idleTimeoutMinutes,
    supportsIDLE := false }

/-- Method `IdleClient.CheckIDLESupport`: sets the flag and returns true,
without querying the server. -/
def CheckIDLESupport (ic : IdleClient) : IdleClient × Bool :=
  ({ ic with supportsIDLE := true }, true)

/-- Function `imap.isConnectionError`. -/
def isConnectionError (err : Option GoError) : Bool :=
  match err with
  | none => false
  | some msg =>
      (msg.splitOn "connection").length > 1 ||
      (msg.splitOn "EOF").length > 1 ||
      (msg.splitOn "broken pipe").length > 1 ||
      (msg.splitOn "reset by peer").length > 1 ||
      (msg.splitOn "wsasend").length > 1 ||
      (msg.splitOn "aborted").length > 1

/-- Which of the three channels raced by `runIDLE` fires first: the idle
timeout timer, a server update (possibly a nil update), or the IDLE
command itself finishing (with or without an error). -/
inductive IdleEvent where
  | timerFired
  | updateArrived (nonNil : Bool)
  | idleFinished (err : Option GoError)
deriving DecidableEq, Repr

/-- Method `IdleClient.runIDLE`: the `(hasUpdate, err)` result and the
values it sends on the bool update channel. -/
def runIDLE (ev : IdleEvent) : (Bool × Option GoError) × List Bool :=
  match ev with
  | .timerFired => ((false, none), [])
  | .updateArrived nonNil =>
      if nonNil then ((true, none), [true]) else ((false, none), [])
  | .idleFinished err =>
      match err with
      | some e => ((false, some ("IDLE错误: " ++ e)), [])
      | none => ((false, none), [])

/-- Method `IdleClient.MonitorWithIDLE`: the values sent on the bool
channel before it is closed.  A failed `Select`, an IDLE error, a nil
update and a clean timeout all close the channel without a send; a
non-nil update sends `true` (once from inside `runIDLE`, and the outer
goroutine attempts a second send that no reader ever takes). -/
def MonitorWithIDLE (selectErr : Option GoError) (ev : IdleEvent) : List Bool :=
  match selectErr with
  | some _ => []
  | none =>
      let r := runIDLE ev
      match r.1.2 with
      | some _ => r.2
      | none => if r.1.1 then r.2 ++ [true] else r.2

/-- Receive one value from a bool channel: the first value sent, or
`none` when the channel is closed without a send. -/
def recvBool (sent : List Bool) : Option Bool := sent.head?

/-- Method `Client.idleMode`: the values it sends on the error channel.
A closed update channel becomes the error `IDLE 已结束`; a `true` update
becomes a nil error (new mail). -/
def idleMode (received : Option Bool) : List (Option GoError) :=
  match received with
  | none => [some "IDLE 已结束"]
  | some hasUpdate => if hasUpdate then [none] else []

/-- One tick of `Client.pollMode`: the outcome of the re-`Select`. -/
abbrev PollTick := Except GoError MailboxStatus

/-- The ticker loop of `Client.pollMode`: the first tick whose count
differs from the initial count sends nil; a `Select` error sends the
error; otherwise the loop keeps waiting (no send). -/
def pollLoop (last : Nat) : List PollTick → List (Option GoError)
  | [] => []
  | .error e :: _ => [some e]
  | .ok mbox :: rest =>
      if mbox.messages ≠ last then [none] else pollLoop last rest

/-- Method `Client.pollMode`: records the initial count (0 when the
initial `Select` fails) and runs the ticker loop. -/
def pollMode (initialSelect : Except GoError MailboxStatus)
    (ticks : List PollTick) : List (Option GoError) :=
  let last := match initialSelect with
    | .ok mbox => mbox.messages
    | .error _ => 0
  pollLoop last ticks

/-- The `imap.Client` struct.  `connected` models the inner go-imap
client pointer being non-nil. -/
structure Client where
  server : String
  port : Nat
  username : String
  password : String
  connected : Bool
  idleClient : Option IdleClient
  accountName : String
  idleTimeout : Nat
  supportsIDLE : Bool
deriving DecidableEq, Repr

/-- Constructor `imap.NewClient`. -/
def NewClient (server : String) (port : Nat)
    (username password accountName : String) (idleTimeout : Nat) : Client :=
  { server := server, port := port, username := username, password := password,
    connected := false, idleClient := none, accountName := accountName,
    idleTimeout := idleTimeout, supportsIDLE := false }

/-- Method `Client.Connect`: on a successful TLS dial, stores the
connection, creates the IDLE client and records `CheckIDLESupport`. -/
def Connect (c : Client) (dial : Option GoError) : Client × Option GoError :=
  match dial with
  | some e => (c, some ("连接失败: " ++ e))
  | none =>
      let ic := NewIdleClient c.accountName c.idleTimeout
      let p := CheckIDLESupport ic
      ({ c with
          connected := true,
          idleClient := some p.1,
          supportsIDLE := p.2 }, none)

/-- Method `Client.Login`, wrapping the library login outcome. -/
def Login (loginResult : Option GoError) : Option GoError :=
  match loginResult with
  | some e => some ("登录失败: " ++ e)
  | none => none

/-- Method `Client.ListFolders`, wrapping the library `List` outcome. -/
def ListFolders (listResult : Except GoError (List String)) :
    Except GoError (List String) :=
  match listResult with
  | .error e => .error ("列出文件夹失败: " ++ e)
  | .ok folders => .ok folders

/-- Oracle for one monitoring wait: the IDLE-path outcomes and the
poll-path outcomes (only the branch that runs consumes its part). -/
structure MonitorEnv where
  idleSelect : Option GoError
  idleEvent : IdleEvent
  pollInitialSelect : PollTick
  pollTicks : List PollTick
deriving Repr

/-- Which monitoring branch `IdleWithFallback` ran. -/
inductive MonitorMode where
  | idleBranch
  | pollBranch
deriving DecidableEq, Repr

/-- Method `Client.IdleWithFallback`: chooses IDLE when the support flag
is set and the IDLE client exists, else polling; returns the branch taken
and the values sent on the monitor's error channel. -/
def IdleWithFallback (c : Client) (env : MonitorEnv) :
    MonitorMode × List (Option GoError) :=
  if c.supportsIDLE ∧ c.idleClient.isSome then
    (.idleBranch, idleMode (recvBool (MonitorWithIDLE env.idleSelect env.idleEvent)))
  else
    (.pollBranch, pollMode env.pollInitialSelect env.pollTicks)

/-- Receive one value from the error channel: the first value sent, or
the Go zero value (nil) when the channel is closed without a send. -/
def recvOnce (sent : List (Option GoError)) : Option GoError :=
  sent.headD none

/-! ## Package `receiver`: the per-account monitor
(`receiver/receiver.go`)

The per-account state is `AccountReceiver` (as in the Go struct); one
monitoring cycle is `run`, error handling with retry or fatal exit is
`handleError`, and the endless `runAccountReceiver` loop is unrolled by
`runSteps` over a list of per-cycle oracles. -/

/-- The `config.AccountConfig` struct. -/
structure AccountConfig where
  server : String
  port : Nat
  username : String
  password : String
  pollInterval : Nat
  sendPush : String
  folders : List String
  idleTimeout : Nat
deriving DecidableEq, Repr

/-- The `receiver.AccountReceiver` struct. -/
structure AccountReceiver where
  name : String
  config : AccountConfig
  client : Client
  retries : Nat
  maxRetries : Nat
  retryDelaySeconds : Nat
  pusher : Option Pusher
  firstConnect : Bool
deriving DecidableEq, Repr

/-- The construction of one `AccountReceiver` in `Receiver.Start`:
maxRetries 3, retry delay 30 s, a pusher on the configured endpoint, the
first-connect flag set, and the zero-valued retry counter. -/
def newAccountReceiver (name : String) (cfg : AccountConfig) : AccountReceiver :=
  { name := name,
    config := cfg,
    client := NewClient cfg.server cfg.port cfg.username cfg.password name
      cfg.idleTimeout,
    retries := 0,
    maxRetries := 3,
    retryDelaySeconds := 30,
    pusher := some (NewPusher cfg.sendPush name),
    firstConnect := true }

/-- The Go `email.Date.Format("2006-01-02 15:04:05")` call: formatting by
the external time library, abstracted to a canonical injective rendering
of the abstract instant. -/
def formatDateTime (t : GoTime) : String := toString t

/-- Oracle for the processing of one fetched message: the HTTP transport
outcome of its push and the store outcome of its `MarkAsRead`. -/
structure PerMessageEnv where
  pushNet : PostFormResult
  storeResult : Option GoError
deriving DecidableEq, Repr

/-- The push body text built in the message loop: prefer the plain body,
else the stripped HTML body; then `push.BuildMessageContent` with the
first sender, the recipients, the formatted receive time and the
attachment flag. -/
def pushPayload (email : EmailMessage) : String :=
  let body := if email.body = "" ∧ email.htmlBody ≠ "" then
      stripHTML email.htmlBody else email.body
  let from_ := match email.from_ with
    | [] => ""
    | f :: _ => f
  BuildMessageContent body (formatDateTime email.date) from_
    email.to_ email.hasAttachments

/-- The body of the message loop in `fetchAndProcessMessages`: parse (skip
and log on failure), build the payload, push, and on explicit push
success mark the message read (the store error is discarded) and log. -/
def processMessage (ar : AccountReceiver) (env : PerMessageEnv)
    (msg : Option RawMessage) : List Event :=
  match ParseMessage msg ar.name with
  | (.error e, parseEvents) =>
      parseEvents ++ [.logLine ("[" ++ ar.name ++ "] 解析邮件失败: " ++ e)]
  | (.ok email, parseEvents) =>
      match ar.pusher with
      | none => parseEvents
      | some p =>
          let msgContent := pushPayload email
          let r := p.Push env.pushNet email.subject msgContent
          let pushEvt := Event.pushCall email.subject msgContent r
          match r.2 with
          | some e =>
              parseEvents ++ [pushEvt,
                .logLine ("[" ++ ar.name ++ "] 推送失败: " ++ e)]
          | none =>
              if r.1 then
                parseEvents ++ [pushEvt, .markAsRead email.uid,
                  .logLine ("[" ++ ar.name ++ "] 已推送: " ++ email.subject)]
              else parseEvents ++ [pushEvt]

/-- Oracle for one `fetchAndProcessMessages` call: the fetch outcomes and
a per-message oracle indexed by position in the fetched batch. -/
structure FetchProcessEnv where
  fetch : FetchEnv
  perMessage : Nat → PerMessageEnv

/-- Append position indices to a list (the loop counter). -/
def withIdx (l : List RawMessage) : List (Nat × RawMessage) := l.enum

/-- Result of one `fetchAndProcessMessages` call: the receiver state
afterwards, the events in order, and what the fetch passed to the
library `Fetch` call (for the peek-vs-mark distinction). -/
structure FetchProcessResult where
  state : AccountReceiver
  events : List Event
  issued : Option FetchIssued
deriving Repr

/-- Method `AccountReceiver.fetchAndProcessMessages`: fetch up to 50
messages without marking read; a fetch error is logged and absorbed; an
empty batch does nothing; otherwise each message is processed in arrival
order.  The Go function mutates nothing on the receiver, so the state is
returned unchanged. -/
def fetchAndProcessMessages (ar : AccountReceiver) (env : FetchProcessEnv)
    (folder : String) : FetchProcessResult :=
  match FetchMessages env.fetch folder 50 false with
  | (.error e, issued) =>
      { state := ar,
        events := [.logLine ("[" ++ ar.name ++ "] 获取邮件失败: " ++ e)],
        issued := issued }
  | (.ok messages, issued) =>
      if messages.length = 0 then
        { state := ar, events := [], issued := issued }
      else
        { state := ar,
          events := .logLine ("[" ++ ar.name ++ "] 收到 "
            ++ toString messages.length ++ " 封新邮件") ::
            (withIdx messages).flatMap
              (fun im => processMessage ar (env.perMessage im.1) (some im.2)),
          issued := issued }

/-- Oracle for one full `run` cycle. -/
structure CycleEnv where
  dial : Option GoError
  loginResult : Option GoError
  listResult : Except GoError (List String)
  fetch1 : FetchProcessEnv
  monitor : MonitorEnv
  fetch2 : FetchProcessEnv

/-- Method `AccountReceiver.run`: one monitoring cycle.  Connect and
login failures return wrapped errors; on login success the retry counter
is reset to 0; on the first connection the folder list is logged; the
first configured folder is processed, then the monitor wait's outcome is
either an error (returned) or new mail (process again, return nil). -/
def run (ar : AccountReceiver) (env : CycleEnv) :
    AccountReceiver × Option GoError × List Event :=
  let c := Connect ar.client env.dial
  let ar := { ar with client := c.1 }
  match c.2 with
  | some e => (ar, some ("连接失败: " ++ e), [])
  | none =>
      match Login env.loginResult with
      | some e => (ar, some ("登录失败: " ++ e), [])
      | none =>
          let events := [Event.logLine ("[" ++ ar.name ++ "] 登录成功")]
          let ar := { ar with retries := 0 }
          let p :=
            if ar.firstConnect then
              let ar2 := { ar with firstConnect := false }
              match ListFolders env.listResult with
              | .ok folders =>
                  (ar2, events ++
                    [.logLine ("[" ++ ar.name ++ "] 可用文件夹列表:")] ++
                    folders.map (fun f =>
                      Event.logLine ("[" ++ ar.name ++ "]   - " ++ f)))
              | .error e =>
                  (ar2, events ++
                    [.logLine ("[" ++ ar.name ++ "] 获取文件夹列表失败: " ++ e)])
            else (ar, events)
          let ar := p.1
          let events := p.2
          match ar.config.folders with
          | [] => (ar, some "未配置监控文件夹", events)
          | folder :: _ =>
              let f1 := fetchAndProcessMessages ar env.fetch1 folder
              let events := events ++ f1.events
              let m := IdleWithFallback f1.state.client env.monitor
              match recvOnce m.2 with
              | some e => (f1.state, some e, events)
              | none =>
                  let f2 := fetchAndProcessMessages f1.state env.fetch2 folder
                  (f2.state, none, events ++ f2.events)

/-- The alert title used by `handleError`. -/
def alertTitle : String := "请检查 Mail 服务"

/-- The alert body used by `handleError`: account name, retry count and
last error text. -/
def alertMsg (name : String) (maxRetries : Nat) (err : GoError) : String :=
  "账号 [" ++ name ++ "] 已达最大重试次数 (" ++ toString maxRetries
    ++ ")，程序已退出\n最后错误: " ++ err

/-- What `handleError` did after incrementing the counter: terminate the
process, or sleep the fixed delay and let the loop retry. -/
inductive HandleOutcome where
  | exited (code : Nat)
  | sleptAndRetry (delaySeconds : Nat)
deriving DecidableEq, Repr

/-- Method `AccountReceiver.handleError`: increment the retry counter;
at the maximum, log, push one alert (when the pusher exists) and exit the
process with code 1; below it, log and sleep the retry delay. -/
def handleError (ar : AccountReceiver) (alertNet : PostFormResult)
    (err : GoError) : AccountReceiver × HandleOutcome × List Event :=
  let ar := { ar with retries := ar.retries + 1 }
  if ar.retries ≥ ar.maxRetries then
    let events := [Event.logLine ("[" ++ ar.name ++ "] 已达到最大重试次数 ("
      ++ toString ar.maxRetries ++ ")，程序退出")]
    let events := events ++
      (match ar.pusher with
       | some p =>
           let res := p.Push alertNet alertTitle
             (alertMsg ar.name ar.maxRetries err)
           [Event.pushCall alertTitle (alertMsg ar.name ar.maxRetries err) res]
       | none => [])
    (ar, .exited 1, events)
  else
    (ar, .sleptAndRetry ar.retryDelaySeconds,
     [Event.logLine ("[" ++ ar.name ++ "] " ++ err ++ ", 将在 "
       ++ toString ar.retryDelaySeconds ++ "s 后重试 (第 "
       ++ toString ar.retries ++ "/" ++ toString ar.maxRetries ++ " 次尝试)")])

/-- One iteration of the `runAccountReceiver` loop: `run`, then
`handleError` on a non-nil error. -/
inductive StepResult where
  | continued (ar : AccountReceiver) (events : List Event)
  | exited (code : Nat) (events : List Event)

/-- One iteration of `Receiver.runAccountReceiver`'s endless loop. -/
def receiverStep (ar : AccountReceiver) (alertNet : PostFormResult)
    (env : CycleEnv) : StepResult :=
  let r := run ar env
  match r.2.1 with
  | none => .continued r.1 r.2.2
  | some err =>
      let h := handleError r.1 alertNet err
      match h.2.1 with
      | .exited code => .exited code (r.2.2 ++ h.2.2)
      | .sleptAndRetry _ => .continued h.1 (r.2.2 ++ h.2.2)

/-- The result of running finitely many iterations of the loop. -/
inductive LoopResult where
  | running (ar : AccountReceiver) (events : List Event)
  | exitedWith (code : Nat) (events : List Event)

/-- Run the `runAccountReceiver` loop through a list of per-cycle
oracles, stopping early on a process exit. -/
def runSteps (ar : AccountReceiver) (alertNet : PostFormResult) :
    List CycleEnv → LoopResult
  | [] => .running ar []
  | env :: rest =>
      match receiverStep ar alertNet env with
      | .exited code events => .exitedWith code events
      | .continued ar' events =>
          match runSteps ar' alertNet rest with
          | .running ar'' events' => .running ar'' (events ++ events')
          | .exitedWith code events' => .exitedWith code (events ++ events')

/-- Test for a push (HTTP delivery) event. -/
def isPushCall : Event → Bool
  | .pushCall _ _ _ => true
  | _ => false

/-- Test for a read-flag store event. -/
def isMarkAsRead : Event → Bool
  | .markAsRead _ => true
  | _ => false

/-- The uids marked read in an event list, in order. -/
def markedUids (events : List Event) : List Nat :=
  events.filterMap (fun e =>
    match e with
    | .markAsRead uid => some uid
    | _ => none)

/-- Test for a log event. -/
def isLogLine : Event → Bool
  | .logLine _ => true
  | _ => false

/-! ## Shared lemmas -/

theorem markedUids_append (a b : List Event) :
    markedUids (a ++ b) = markedUids a ++ markedUids b := by
  simp [markedUids]

theorem markedUids_of_onlyLogs :
    ∀ {events : List Event}, (∀ e ∈ events, isLogLine e = true) →
      markedUids events = [] := by
  intro events
  induction events with
  | nil => intro _; rfl
  | cons e rest ih =>
      intro h
      have he := h e (by simp)
      have hrest := ih (fun x hx => h x (by simp [hx]))
      cases e with
      | logLine s => simpa [markedUids] using hrest
      | pushCall t m r => simp [isLogLine] at he
      | markAsRead uid => simp [isLogLine] at he

theorem partStep_onlyLogs (name : String) (acc : PartsAcc) (pr : PartResult)
    (h : ∀ e ∈ acc.events, isLogLine e = true) :
    ∀ e ∈ (partStep name acc pr).events, isLogLine e = true := by
  unfold partStep
  by_cases hs : acc.stopped
  · simpa [hs] using h
  · simp only [hs, if_false, Bool.false_eq_true]
    cases pr with
    | error err => simpa using h
    | ok hdr =>
        cases hdr with
        | attachmentHdr => simpa using h
        | inlineHdr ct br =>
            cases br with
            | error err =>
                intro e he
                simp only [List.mem_append, List.mem_singleton] at he
                rcases he with h1 | h1
                · exact h e h1
                · subst h1; rfl
            | ok body =>
                by_cases h1 : ct.startsWith "text/plain" <;>
                  by_cases h2 : ct.startsWith "text/html" <;>
                  simpa [h1, h2] using h

theorem foldl_partStep_onlyLogs (name : String) :
    ∀ (parts : List PartResult) (acc : PartsAcc),
      (∀ e ∈ acc.events, isLogLine e = true) →
      ∀ e ∈ (parts.foldl (partStep name) acc).events, isLogLine e = true := by
  intro parts
  induction parts with
  | nil => intro acc h; exact h
  | cons pr rest ih =>
      intro acc h
      exact ih _ (partStep_onlyLogs name acc pr h)

theorem processParts_onlyLogs (name : String) :
    ∀ (parts : List PartResult) (email : EmailMessage),
      ∀ e ∈ (processParts name email parts).2.2, isLogLine e = true := by
  intro parts email
  exact foldl_partStep_onlyLogs name parts _ (by simp)

theorem parseBody_onlyLogs (lit : Literal) (email : EmailMessage)
    (name : String) :
    ∀ e ∈ (parseBody lit email name).2.2, isLogLine e = true := by
  cases lit with
  | unreadable err => intro e he; simp [parseBody] at he
  | readable hs hd parts =>
      intro e he
      simp only [parseBody] at he
      exact processParts_onlyLogs name parts _ e he

theorem parseLiteralStep_onlyLogs (name : String)
    (acc : EmailMessage × List Event) (lit : Option Literal)
    (hacc : ∀ e ∈ acc.2, isLogLine e = true) :
    ∀ e ∈ (parseLiteralStep name acc lit).2, isLogLine e = true := by
  match lit with
  | none => exact hacc
  | some l =>
      intro e he
      simp only [parseLiteralStep] at he
      split at he
      · simp only [List.append_assoc, List.mem_append, List.mem_singleton] at he
        rcases he with h | h | h
        · exact hacc e h
        · exact parseBody_onlyLogs l acc.1 name e h
        · subst h; rfl
      · simp only [List.mem_append] at he
        rcases he with h | h
        · exact hacc e h
        · exact parseBody_onlyLogs l acc.1 name e h

theorem foldl_parseLiteralStep_onlyLogs (name : String) :
    ∀ (lits : List (Option Literal)) (acc : EmailMessage × List Event),
      (∀ e ∈ acc.2, isLogLine e = true) →
      ∀ e ∈ (lits.foldl (parseLiteralStep name) acc).2, isLogLine e = true := by
  intro lits
  induction lits with
  | nil => intro acc hacc; exact hacc
  | cons lit rest ih =>
      intro acc hacc
      exact ih _ (parseLiteralStep_onlyLogs name acc lit hacc)

theorem ParseMessage_onlyLogs (msg : Option RawMessage) (name : String) :
    ∀ e ∈ (ParseMessage msg name).2, isLogLine e = true := by
  cases msg with
  | none => intro e he; simp [ParseMessage] at he
  | some m =>
      intro e he
      simp only [ParseMessage] at he
      exact foldl_parseLiteralStep_onlyLogs name m.body _ (by simp) e he

theorem markedUids_ParseMessage (msg : Option RawMessage) (name : String) :
    markedUids (ParseMessage msg name).2 = [] :=
  markedUids_of_onlyLogs (ParseMessage_onlyLogs msg name)

/-- Characterisation of read-flag stores per message: `MarkAsRead` is
invoked exactly when the parse succeeded, a pusher exists and its `Push`
returned `(true, nil)`, and then exactly for that message's uid. -/
theorem markedUids_processMessage (ar : AccountReceiver) (env : PerMessageEnv)
    (msg : Option RawMessage) :
    markedUids (processMessage ar env msg) =
      (match (ParseMessage msg ar.name).1, ar.pusher with
       | .ok email, some p =>
           if p.Push env.pushNet email.subject (pushPayload email) = (true, none)
           then [email.uid] else []
       | _, _ => []) := by
  have hlogs := markedUids_ParseMessage msg ar.name
  rcases hP : ParseMessage msg ar.name with ⟨res, parseEvents⟩
  rw [hP] at hlogs
  have hlogs' : markedUids parseEvents = [] := hlogs
  unfold processMessage
  rw [hP]
  cases res with
  | error e =>
      simp only []
      rw [markedUids_append, hlogs']
      rfl
  | ok email =>
      cases hpu : ar.pusher with
      | none =>
          simp only [hpu]
          rw [hlogs']
      | some p =>
          simp only [hpu]
          rcases hr : p.Push env.pushNet email.subject (pushPayload email)
            with ⟨success, err⟩
          cases err with
          | some e =>
              simp only []
              rw [markedUids_append, hlogs']
              simp [hr]
              rfl
          | none =>
              cases success with
              | true =>
                  have hv : markedUids (parseEvents ++
                      [Event.pushCall email.subject (pushPayload email)
                        (true, none), Event.markAsRead email.uid,
                       Event.logLine ("[" ++ ar.name ++ "] 已推送: "
                         ++ email.subject)]) = [email.uid] := by
                    rw [markedUids_append, hlogs']; rfl
                  simpa using hv
              | false =>
                  have hv : markedUids (parseEvents ++
                      [Event.pushCall email.subject (pushPayload email)
                        (false, none)]) = [] := by
                    rw [markedUids_append, hlogs']; rfl
                  simpa using hv

theorem fetchAndProcess_state (ar : AccountReceiver) (env : FetchProcessEnv)
    (folder : String) : (fetchAndProcessMessages ar env folder).state = ar := by
  unfold fetchAndProcessMessages
  rcases FetchMessages env.fetch folder 50 false with ⟨res, issued⟩
  cases res with
  | error e => rfl
  | ok messages =>
      by_cases hlen : messages.length = 0 <;> simp [hlen]

theorem markedUids_flatMap (f : Nat × RawMessage → List Event) :
    ∀ (l : List (Nat × RawMessage)),
      markedUids (l.flatMap f) = l.flatMap (fun x => markedUids (f x)) := by
  intro l
  induction l with
  | nil => rfl
  | cons x rest ih => simp [List.flatMap_cons, markedUids_append, ih]

/-- The read-flag stores of one `fetchAndProcessMessages` call are the
in-order concatenation of the per-message stores. -/
theorem markedUids_fetchAndProcess (ar : AccountReceiver)
    (env : FetchProcessEnv) (folder : String) :
    markedUids (fetchAndProcessMessages ar env folder).events =
      (match (FetchMessages env.fetch folder 50 false).1 with
       | .ok messages =>
           (withIdx messages).flatMap
             (fun im => markedUids (processMessage ar (env.perMessage im.1) (some im.2)))
       | .error _ => []) := by
  unfold fetchAndProcessMessages
  rcases hF : FetchMessages env.fetch folder 50 false with ⟨res, issued⟩
  cases res with
  | error e => rfl
  | ok messages =>
      by_cases hlen : messages.length = 0
      · have hnil : messages = [] := List.length_eq_zero.mp hlen
        subst hnil
        simp [withIdx, markedUids]
      · simp only [hlen, if_false]
        have hcons : markedUids
            (Event.logLine ("[" ++ ar.name ++ "] 收到 "
              ++ toString messages.length ++ " 封新邮件") ::
             (withIdx messages).flatMap
               (fun im => processMessage ar (env.perMessage im.1) (some im.2))) =
            markedUids ((withIdx messages).flatMap
              (fun im => processMessage ar (env.perMessage im.1) (some im.2))) := by
          simp [markedUids]
        simp only [hcons, markedUids_flatMap]

/-- A cycle whose TLS dial fails returns the doubly wrapped connect
error and leaves the receiver state unchanged (structure eta). -/
theorem run_conn_fail (env : CycleEnv) (d : GoError) (h : env.dial = some d) :
    ∀ ar : AccountReceiver,
      run ar env = (ar, some ("连接失败: 连接失败: " ++ d), []) := by
  intro ar
  unfold run
  rw [h]
  rfl

/-- After a cycle whose connect and login succeed, the retry counter of
the resulting state is exactly 0. -/
theorem run_retries_zero (ar : AccountReceiver) (env : CycleEnv)
    (h1 : env.dial = none) (h2 : env.loginResult = none) :
    (run ar env).1.retries = 0 := by
  unfold run
  rw [h1, h2]
  simp only [Connect, Login]
  repeat' split
  all_goals simp [fetchAndProcess_state]

/-- A cycle never changes the maximum-retries limit. -/
theorem run_maxRetries (ar : AccountReceiver) (env : CycleEnv) :
    (run ar env).1.maxRetries = ar.maxRetries := by
  unfold run
  cases hd : env.dial with
  | some e => rfl
  | none =>
      simp only [Connect]
      repeat' split
      all_goals simp [fetchAndProcess_state]

/-- The error returned by a cycle whose connect and login succeed is
exactly what the IDLE monitor layer delivers: the IDLE branch always
runs, and the value received from the one-shot channel is returned. -/
theorem run_monitor_error (ar : AccountReceiver) (env : CycleEnv)
    (h1 : env.dial = none) (h2 : env.loginResult = none)
    (h5 : ar.config.folders ≠ []) :
    (run ar env).2.1 =
      recvOnce (idleMode (recvBool (MonitorWithIDLE env.monitor.idleSelect
        env.monitor.idleEvent))) := by
  unfold run
  rw [h1, h2]
  simp only [Connect, Login]
  by_cases hfc : ar.firstConnect = true
  · simp only [hfc, if_true]
    cases hlf : ListFolders env.listResult with
    | ok folders =>
        cases hfo : ar.config.folders with
        | nil => exact absurd hfo h5
        | cons folder rest =>
            simp [fetchAndProcess_state, IdleWithFallback, CheckIDLESupport,
              NewIdleClient]
            cases hrc : recvBool (MonitorWithIDLE env.monitor.idleSelect
              env.monitor.idleEvent) with
            | none => simp [idleMode, recvOnce, hfo]
            | some val => cases val <;> simp [idleMode, recvOnce, hfo]
    | error e =>
        cases hfo : ar.config.folders with
        | nil => exact absurd hfo h5
        | cons folder rest =>
            simp [fetchAndProcess_state, IdleWithFallback, CheckIDLESupport,
              NewIdleClient]
            cases hrc : recvBool (MonitorWithIDLE env.monitor.idleSelect
              env.monitor.idleEvent) with
            | none => simp [idleMode, recvOnce, hfo]
            | some val => cases val <;> simp [idleMode, recvOnce, hfo]
  · simp only [hfc, if_false]
    cases hfo : ar.config.folders with
    | nil => exact absurd hfo h5
    | cons folder rest =>
        simp [fetchAndProcess_state, IdleWithFallback, CheckIDLESupport,
          NewIdleClient]
        cases hrc : recvBool (MonitorWithIDLE env.monitor.idleSelect
          env.monitor.idleEvent) with
        | none => simp [idleMode, recvOnce, hfo]
        | some val => cases val <;> simp [idleMode, recvOnce, hfo]

/-- A cycle that returns no error makes the loop continue. -/
theorem receiverStep_of_run_none (ar : AccountReceiver) (anet : PostFormResult)
    (env : CycleEnv) (h : (run ar env).2.1 = none) :
    receiverStep ar anet env = .continued (run ar env).1 (run ar env).2.2 := by
  unfold receiverStep
  rcases hr : run ar env with ⟨ar1, err, evts⟩
  rw [hr] at h
  simp only at h
  subst h
  rfl

/-- A failed cycle below the retry limit: `handleError` increments the
counter, logs and sleeps, and the loop continues. -/
theorem receiverStep_conn_fail_retry (ar : AccountReceiver)
    (anet : PostFormResult) (env : CycleEnv) (d : GoError)
    (h : env.dial = some d) (hlt : ar.retries + 1 < ar.maxRetries) :
    receiverStep ar anet env =
      .continued { ar with retries := ar.retries + 1 }
        ([] ++ [Event.logLine ("[" ++ ar.name ++ "] "
          ++ ("连接失败: 连接失败: " ++ d) ++ ", 将在 "
          ++ toString ar.retryDelaySeconds ++ "s 后重试 (第 "
          ++ toString (ar.retries + 1) ++ "/" ++ toString ar.maxRetries
          ++ " 次尝试)")]) := by
  unfold receiverStep
  rw [run_conn_fail env d h ar]
  simp only [handleError]
  rw [if_neg (by omega)]

/-- A failed cycle at the retry limit: `handleError` increments the
counter, logs, attempts exactly one alert push and exits with code 1. -/
theorem receiverStep_conn_fail_exit (ar : AccountReceiver)
    (anet : PostFormResult) (env : CycleEnv) (d : GoError) (p : Pusher)
    (h : env.dial = some d) (hge : ar.retries + 1 ≥ ar.maxRetries)
    (hp : ar.pusher = some p) :
    receiverStep ar anet env =
      .exited 1 ([] ++
        ([Event.logLine ("[" ++ ar.name ++ "] 已达到最大重试次数 ("
           ++ toString ar.maxRetries ++ ")，程序退出")] ++
         [Event.pushCall alertTitle
           (alertMsg ar.name ar.maxRetries ("连接失败: 连接失败: " ++ d))
           (p.Push anet alertTitle
             (alertMsg ar.name ar.maxRetries ("连接失败: 连接失败: " ++ d)))])) := by
  unfold receiverStep
  rw [run_conn_fail env d h ar]
  simp only [handleError, hp]
  rw [if_pos (by omega)]

/-- Abstract form of `receiverStep_conn_fail_retry`: the facts about the
continued state and events needed to chain steps. -/
theorem receiverStep_conn_fail_retry_ex (ar : AccountReceiver)
    (anet : PostFormResult) (env : CycleEnv) (d : GoError)
    (h : env.dial = some d) (hlt : ar.retries + 1 < ar.maxRetries) :
    ∃ ar2 ev, receiverStep ar anet env = .continued ar2 ev ∧
      ar2.retries = ar.retries + 1 ∧ ar2.maxRetries = ar.maxRetries ∧
      ar2.name = ar.name ∧ ar2.retryDelaySeconds = ar.retryDelaySeconds ∧
      ar2.pusher = ar.pusher ∧ ev.filter isPushCall = [] :=
  ⟨_, _, receiverStep_conn_fail_retry ar anet env d h hlt,
   rfl, rfl, rfl, rfl, rfl, rfl⟩

/-- Abstract form of `receiverStep_conn_fail_exit`: the process exits
with code 1 and the events hold exactly one push, the alert. -/
theorem receiverStep_conn_fail_exit_ex (ar : AccountReceiver)
    (anet : PostFormResult) (env : CycleEnv) (d : GoError) (p : Pusher)
    (h : env.dial = some d) (hge : ar.retries + 1 ≥ ar.maxRetries)
    (hp : ar.pusher = some p) :
    ∃ ev, receiverStep ar anet env = .exited 1 ev ∧
      ev.filter isPushCall =
        [Event.pushCall alertTitle
          (alertMsg ar.name ar.maxRetries ("连接失败: 连接失败: " ++ d))
          (p.Push anet alertTitle
            (alertMsg ar.name ar.maxRetries ("连接失败: 连接失败: " ++ d)))] :=
  ⟨_, receiverStep_conn_fail_exit ar anet env d p h hge hp, rfl⟩

/-- Unfolding step of the loop when a cycle continues. -/
theorem runSteps_cons_continued (ar : AccountReceiver) (anet : PostFormResult)
    (env : CycleEnv) (rest : List CycleEnv) (ar2 : AccountReceiver)
    (evts : List Event) (h : receiverStep ar anet env = .continued ar2 evts) :
    runSteps ar anet (env :: rest) =
      (match runSteps ar2 anet rest with
       | .running ar3 evts2 => .running ar3 (evts ++ evts2)
       | .exitedWith code evts2 => .exitedWith code (evts ++ evts2)) := by
  conv_lhs => unfold runSteps
  rw [h]

/-- Unfolding step of the loop when a cycle exits the process: later
cycles are never consumed. -/
theorem runSteps_cons_exited (ar : AccountReceiver) (anet : PostFormResult)
    (env : CycleEnv) (rest : List CycleEnv) (code : Nat) (evts : List Event)
    (h : receiverStep ar anet env = .exited code evts) :
    runSteps ar anet (env :: rest) = .exitedWith code evts := by
  conv_lhs => unfold runSteps
  rw [h]

/-! ## Concrete fixtures used by witnesses and counterexamples -/

/-- A sample account configuration. -/
def sampleCfg : AccountConfig :=
  { server := "imap.example.com", port := 993, username := "u",
    password := "pw", pollInterval := 60, sendPush := "http://push.example",
    folders := ["INBOX"], idleTimeout := 20 }

/-- A sample per-account receiver as built by `Receiver.Start`. -/
def sampleReceiver : AccountReceiver := newAccountReceiver "acct" sampleCfg

/-- A fetch oracle for a folder with zero messages. -/
def emptyFetchEnv : FetchProcessEnv :=
  { fetch := { selectResult := .ok { messages := 0 }, searchResult := .ok [],
               fetchDelivered := [], fetchDone := none },
    perMessage := fun _ => { pushNet := .response 200, storeResult := none } }

/-- A monitor oracle whose IDLE wait elapses cleanly (timer fires first). -/
def timeoutMonitorEnv : MonitorEnv :=
  { idleSelect := none, idleEvent := .timerFired,
    pollInitialSelect := .ok { messages := 0 }, pollTicks := [] }

/-- A cycle oracle: connect and login succeed, the folder is empty, and
the IDLE wait times out cleanly with no update and no transport error. -/
def timeoutCycle : CycleEnv :=
  { dial := none, loginResult := none, listResult := .ok ["INBOX"],
    fetch1 := emptyFetchEnv, monitor := timeoutMonitorEnv,
    fetch2 := emptyFetchEnv }

/-- A cycle oracle whose TLS dial fails. -/
def connFailCycle : CycleEnv :=
  { timeoutCycle with dial := some "dial tcp: connection refused" }

/-- A sample raw message with uid 11 and subject "A". -/
def sampleMsgA : RawMessage :=
  { uid := 11, seqNum := 1, size := 100, flags := [],
    envelope := some { subject := "A", date := 5, from_ := [], to_ := [],
                       cc := [] },
    body := [] }

/-- A sample raw message with uid 22 and subject "B". -/
def sampleMsgB : RawMessage :=
  { uid := 22, seqNum := 2, size := 100, flags := [],
    envelope := some { subject := "B", date := 6, from_ := [], to_ := [],
                       cc := [] },
    body := [] }

/-- A fetch oracle delivering the two sample messages, whose first push
succeeds (HTTP 200) and whose second push fails with a transport error. -/
def twoMsgEnv : FetchProcessEnv :=
  { fetch := { selectResult := .ok { messages := 2 },
               searchResult := .ok [1, 2],
               fetchDelivered := [sampleMsgA, sampleMsgB],
               fetchDone := none },
    perMessage := fun i =>
      if i = 0 then { pushNet := .response 200, storeResult := none }
      else { pushNet := .netError "timeout", storeResult := none } }

/-! ## Claim theorems -/

/-- C8: the markup-stripping function applied to
`"<p>Hi <b>there</b></p><script>x</script>"` returns exactly
`"Hi there"`: the script element and its content are removed, the closing
block tag becomes a newline, inline tags are removed, and
leading/trailing/blank-line whitespace is collapsed. -/
theorem C8_stripHTML_sample :
    stripHTML "<p>Hi <b>there</b></p><script>x</script>" = "Hi there" := by
  rfl

/-- C10: for every non-nil raw message, `ParseMessage` returns a
normalized message and a nil error; it returns an error exactly when the
input message is nil (body-parsing failures are logged and swallowed), so
the skip-on-normalization-failure branch in fetch-and-deliver is
reachable only for a nil fetched message. -/
theorem C10_parse_error_only_for_nil (name : String) :
    (∀ m : RawMessage, ∃ email, (ParseMessage (some m) name).1 = Except.ok email) ∧
    (∀ msg : Option RawMessage,
      (∃ e, (ParseMessage msg name).1 = Except.error e) ↔ msg = none) := by
  constructor
  · intro m
    exact ⟨_, rfl⟩
  · intro msg
    cases msg with
    | none => exact ⟨fun _ => rfl, fun _ => ⟨"消息为空", rfl⟩⟩
    | some m =>
        constructor
        · rintro ⟨e, he⟩
          simp only [ParseMessage] at he
          exact absurd he (by simp)
        · intro h
          exact absurd h (by simp)

/-- C9: `CheckIDLESupport` returns true unconditionally, so after every
successful `Connect` the IDLE-support flag is set and `IdleWithFallback`
always takes the IDLE branch — `pollMode` is never executed. -/
theorem C9_idle_branch_always (ic0 : IdleClient) :
    ((CheckIDLESupport ic0).2 = true ∧ (CheckIDLESupport ic0).1.supportsIDLE = true) ∧
    (∀ (c : Client) (dial : Option GoError) (env : MonitorEnv),
      (Connect c dial).2 = none →
      (Connect c dial).1.supportsIDLE = true ∧
      (IdleWithFallback (Connect c dial).1 env).1 = MonitorMode.idleBranch) := by
  refine ⟨⟨rfl, rfl⟩, ?_⟩
  intro c dial env h
  cases dial with
  | some e => simp [Connect] at h
  | none =>
      refine ⟨rfl, ?_⟩
      simp [IdleWithFallback, Connect, CheckIDLESupport, NewIdleClient]

/-- Witness for C9 at a concrete client and oracle. -/
theorem C9_witness :
    (Connect (NewClient "s" 993 "u" "pw" "acct" 20) none).2 = none ∧
    (IdleWithFallback (Connect (NewClient "s" 993 "u" "pw" "acct" 20) none).1
      timeoutMonitorEnv).1 = MonitorMode.idleBranch :=
  ⟨rfl, ((C9_idle_branch_always (NewIdleClient "acct" 20)).2
    (NewClient "s" 993 "u" "pw" "acct" 20) none timeoutMonitorEnv rfl).2⟩

/-- C5: a pusher with an empty endpoint always returns
`(not delivered, no error)` regardless of title and body, and
consequently an account whose pusher has an empty endpoint produces no
`MarkAsRead` call for any message of any fetched batch. -/
theorem C5_empty_endpoint_never_marks :
    (∀ (p : Pusher) (net : PostFormResult) (title msg : String),
      p.url = "" → p.Push net title msg = (false, none)) ∧
    (∀ (ar : AccountReceiver) (env : FetchProcessEnv) (folder : String),
      (∀ p ∈ ar.pusher, p.url = "") →
      markedUids (fetchAndProcessMessages ar env folder).events = []) := by
  constructor
  · intro p net title msg h
    simp [Pusher.Push, h]
  · intro ar env folder h
    rw [markedUids_fetchAndProcess]
    cases hF : (FetchMessages env.fetch folder 50 false).1 with
    | error e => rfl
    | ok messages =>
        simp only []
        apply List.flatMap_eq_nil_iff.mpr
        intro im _
        rw [markedUids_processMessage]
        cases hP : (ParseMessage (some im.2) ar.name).1 with
        | error e => rfl
        | ok email =>
            cases hpu : ar.pusher with
            | none => rfl
            | some p =>
                have hurl : p.url = "" := h p (by simp [hpu])
                have hpush : p.Push (env.perMessage im.1).pushNet email.subject
                    (pushPayload email) = (false, none) := by
                  simp [Pusher.Push, hurl]
                simp [hpush]

/-- Witness for C5 at a concrete empty-endpoint receiver. -/
theorem C5_witness :
    (Pusher.Push (NewPusher "" "acct") (.response 200) "t" "m" = (false, none)) ∧
    markedUids (fetchAndProcessMessages
      (newAccountReceiver "acct" { sampleCfg with sendPush := "" })
      emptyFetchEnv "INBOX").events = [] :=
  ⟨C5_empty_endpoint_never_marks.1 (NewPusher "" "acct") (.response 200) "t" "m" rfl,
   C5_empty_endpoint_never_marks.2
     (newAccountReceiver "acct" { sampleCfg with sendPush := "" })
     emptyFetchEnv "INBOX"
     (by
       intro p hp
       simp only [newAccountReceiver, NewPusher, Option.mem_def,
         Option.some.injEq] at hp
       subst hp
       rfl)⟩

/-- C7: on a folder with zero unread messages (empty mailbox, or a
successful unread search returning no ids) fetch-and-deliver makes zero
delivery calls and zero mark-as-read calls, leaves the monitor state
unchanged, and re-running it yields the same result. -/
theorem C7_zero_unread_idempotent :
    ∀ (ar : AccountReceiver) (env : FetchProcessEnv) (folder : String),
      ((∃ mbox, env.fetch.selectResult = .ok mbox ∧ mbox.messages = 0) ∨
       ((∃ mbox, env.fetch.selectResult = .ok mbox) ∧
        env.fetch.searchResult = .ok [])) →
      (FetchMessages env.fetch folder 50 false).1 = .ok [] ∧
      (fetchAndProcessMessages ar env folder).events = [] ∧
      (fetchAndProcessMessages ar env folder).state = ar ∧
      fetchAndProcessMessages (fetchAndProcessMessages ar env folder).state
        env folder = fetchAndProcessMessages ar env folder := by
  intro ar env folder h
  have hF : (FetchMessages env.fetch folder 50 false).1 = .ok [] := by
    rcases h with ⟨mbox, hsel, hzero⟩ | ⟨⟨mbox, hsel⟩, hsearch⟩
    · unfold FetchMessages SelectFolder
      rw [hsel]
      simp [hzero]
    · unfold FetchMessages SelectFolder
      rw [hsel]
      by_cases hz : mbox.messages = 0
      · simp [hz]
      · simp [hz, hsearch]
  rcases hFull : FetchMessages env.fetch folder 50 false with ⟨res, issued⟩
  rw [hFull] at hF
  simp only at hF
  subst hF
  refine ⟨rfl, ?_, ?_, ?_⟩
  · unfold fetchAndProcessMessages
    rw [hFull]
    rfl
  · unfold fetchAndProcessMessages
    rw [hFull]
    rfl
  · rw [fetchAndProcess_state]

/-- Witness for C7 at a concrete zero-unread fetch oracle. -/
theorem C7_witness :
    (FetchMessages emptyFetchEnv.fetch "INBOX" 50 false).1 = .ok [] ∧
    (fetchAndProcessMessages sampleReceiver emptyFetchEnv "INBOX").events = [] ∧
    (fetchAndProcessMessages sampleReceiver emptyFetchEnv "INBOX").state =
      sampleReceiver ∧
    fetchAndProcessMessages
      (fetchAndProcessMessages sampleReceiver emptyFetchEnv "INBOX").state
      emptyFetchEnv "INBOX" =
      fetchAndProcessMessages sampleReceiver emptyFetchEnv "INBOX" :=
  C7_zero_unread_idempotent sampleReceiver emptyFetchEnv "INBOX"
    (Or.inl ⟨{ messages := 0 }, rfl, rfl⟩)

/-- C4: the failure counter is reset to exactly 0 by a cycle whose
connect and login succeed; it is incremented by exactly 1 by every
`handleError`; fetch-and-deliver leaves the whole monitor state (and
hence the counter) unchanged, and the cycle's returned error does not
depend on the fetch oracles — operational failures are absorbed. -/
theorem C4_failure_counter_discipline :
    (∀ (ar : AccountReceiver) (env : CycleEnv),
      env.dial = none → env.loginResult = none →
      (run ar env).1.retries = 0) ∧
    (∀ (ar : AccountReceiver) (anet : PostFormResult) (err : GoError),
      ((handleError ar anet err).1).retries = ar.retries + 1) ∧
    (∀ (ar : AccountReceiver) (env : FetchProcessEnv) (folder : String),
      (fetchAndProcessMessages ar env folder).state = ar) ∧
    (∀ (ar : AccountReceiver) (env : CycleEnv) (fe1 fe2 : FetchProcessEnv),
      (run ar { env with fetch1 := fe1, fetch2 := fe2 }).2.1 =
        (run ar env).2.1) := by
  refine ⟨?_, ?_, ?_, ?_⟩
  · intro ar env h1 h2
    unfold run
    rw [h1, h2]
    simp only [Connect, Login]
    repeat' split
    all_goals simp [fetchAndProcess_state]
  · intro ar anet err
    simp only [handleError]
    split <;> rfl
  · intro ar env folder
    exact fetchAndProcess_state ar env folder
  · intro ar env fe1 fe2
    unfold run
    cases hd : env.dial with
    | some e => rfl
    | none =>
        cases hl : env.loginResult with
        | some e => rfl
        | none =>
            simp only [fetchAndProcess_state]
            repeat' split
            all_goals rfl

/-- Witness for C4 at a concrete receiver and cycle oracle. -/
theorem C4_witness :
    (run sampleReceiver timeoutCycle).1.retries = 0 ∧
    ((handleError sampleReceiver (.response 200) "err").1).retries =
      sampleReceiver.retries + 1 ∧
    (fetchAndProcessMessages sampleReceiver emptyFetchEnv "INBOX").state =
      sampleReceiver ∧
    (run sampleReceiver
      { timeoutCycle with fetch1 := emptyFetchEnv, fetch2 := emptyFetchEnv }).2.1 =
      (run sampleReceiver timeoutCycle).2.1 :=
  ⟨C4_failure_counter_discipline.1 sampleReceiver timeoutCycle rfl rfl,
   C4_failure_counter_discipline.2.1 sampleReceiver (.response 200) "err",
   C4_failure_counter_discipline.2.2.1 sampleReceiver emptyFetchEnv "INBOX",
   C4_failure_counter_discipline.2.2.2 sampleReceiver timeoutCycle
     emptyFetchEnv emptyFetchEnv⟩

/-- C2: the read flag is stored for a message exactly when its delivery
push returned explicit success `(true, nil)` — a push error, a
non-success response, a missing pusher or a failed parse leaves it
unchanged — and the fetch issued by fetch-and-deliver always uses the
peek item `BODY.PEEK[]` and never `BODY[]`. -/
theorem C2_mark_iff_push_success :
    (∀ (ar : AccountReceiver) (env : PerMessageEnv) (msg : Option RawMessage),
      markedUids (processMessage ar env msg) =
        (match (ParseMessage msg ar.name).1, ar.pusher with
         | .ok email, some p =>
             if p.Push env.pushNet email.subject (pushPayload email) = (true, none)
             then [email.uid] else []
         | _, _ => [])) ∧
    (∀ (fenv : FetchEnv) (folder : String) (limit : Nat) (issued : FetchIssued),
      (FetchMessages fenv folder limit false).2 = some issued →
      issued.items = fetchItems false ∧
      "BODY.PEEK[]" ∈ issued.items ∧ "BODY[]" ∉ issued.items) ∧
    (∀ (ar : AccountReceiver) (env : FetchProcessEnv) (folder : String),
      (fetchAndProcessMessages ar env folder).issued =
        (FetchMessages env.fetch folder 50 false).2) := by
  refine ⟨markedUids_processMessage, ?_, ?_⟩
  · intro fenv folder limit issued h
    have hitems : issued.items = fetchItems false := by
      unfold FetchMessages at h
      cases hsel : SelectFolder fenv.selectResult folder with
      | error e => rw [hsel] at h; simp at h
      | ok mbox =>
          rw [hsel] at h
          simp only at h
          by_cases hz : mbox.messages = 0
          · rw [if_pos hz] at h; simp at h
          · rw [if_neg hz] at h
            cases hsr : fenv.searchResult with
            | error e =>
                rw [hsr] at h
                simp only at h
                cases hd : fenv.fetchDone with
                | some e2 =>
                    rw [hd] at h
                    simp only [Option.some.injEq] at h
                    rw [← h]
                | none =>
                    rw [hd] at h
                    simp only [Option.some.injEq] at h
                    rw [← h]
            | ok ids =>
                rw [hsr] at h
                simp only at h
                by_cases hids : ids = []
                · rw [if_pos hids] at h; simp at h
                · rw [if_neg hids] at h
                  cases hd : fenv.fetchDone with
                  | some e2 =>
                      rw [hd] at h
                      simp only [Option.some.injEq] at h
                      rw [← h]
                  | none =>
                      rw [hd] at h
                      simp only [Option.some.injEq] at h
                      rw [← h]
    refine ⟨hitems, ?_, ?_⟩
    · rw [hitems]; decide
    · rw [hitems]; decide
  · intro ar env folder
    unfold fetchAndProcessMessages
    rcases hF : FetchMessages env.fetch folder 50 false with ⟨res, issued⟩
    cases res with
    | error e => rfl
    | ok messages => by_cases hl : messages.length = 0 <;> simp [hl]

/-- Witness for C2 at a concrete fetch oracle that issues a fetch. -/
theorem C2_witness :
    markedUids (processMessage sampleReceiver
      { pushNet := .response 200, storeResult := none } (some sampleMsgA)) =
        [11] ∧
    (FetchMessages twoMsgEnv.fetch "INBOX" 50 false).2 =
      some { seqset := .nums [1, 2], items := fetchItems false } ∧
    ({ seqset := SeqSetM.nums [1, 2],
       items := fetchItems false } : FetchIssued).items = fetchItems false ∧
    "BODY.PEEK[]" ∈ fetchItems false ∧ "BODY[]" ∉ fetchItems false := by
  refine ⟨?_, rfl, ?_⟩
  · rw [C2_mark_iff_push_success.1 sampleReceiver
      { pushNet := .response 200, storeResult := none } (some sampleMsgA)]
    rfl
  · have h := C2_mark_iff_push_success.2.1 twoMsgEnv.fetch "INBOX" 50
      { seqset := .nums [1, 2], items := fetchItems false } rfl
    exact ⟨h.1, h.2.1, h.2.2⟩

/-- C3: once the failure counter reaches the maximum (3), exactly one
alert push carrying the account name, the retry count and the last error
text is attempted, the process exits with code 1, and no further cycle
is ever run (later cycle oracles are never consumed). -/
theorem C3_max_retries_alert_then_exit :
    ∀ (name : String) (cfg : AccountConfig) (anet : PostFormResult)
      (e1 e2 e3 : CycleEnv) (rest : List CycleEnv) (d1 d2 d3 : GoError),
      e1.dial = some d1 → e2.dial = some d2 → e3.dial = some d3 →
      ∃ events,
        runSteps (newAccountReceiver name cfg) anet (e1 :: e2 :: e3 :: rest) =
          .exitedWith 1 events ∧
        events.filter isPushCall =
          [Event.pushCall alertTitle
            (alertMsg name 3 ("连接失败: 连接失败: " ++ d3))
            ((NewPusher cfg.sendPush name).Push anet alertTitle
              (alertMsg name 3 ("连接失败: 连接失败: " ++ d3)))] := by
  intro name cfg anet e1 e2 e3 rest d1 d2 d3 h1 h2 h3
  have hr0 : (newAccountReceiver name cfg).retries = 0 := rfl
  have hm0 : (newAccountReceiver name cfg).maxRetries = 3 := rfl
  have hn0 : (newAccountReceiver name cfg).name = name := rfl
  have hp0 : (newAccountReceiver name cfg).pusher =
      some (NewPusher cfg.sendPush name) := rfl
  obtain ⟨ar1, ev1, t1, f1r, f1m, f1n, f1d, f1p, f1f⟩ :=
    receiverStep_conn_fail_retry_ex (newAccountReceiver name cfg) anet e1 d1 h1
      (by omega)
  obtain ⟨ar2, ev2, t2, f2r, f2m, f2n, f2d, f2p, f2f⟩ :=
    receiverStep_conn_fail_retry_ex ar1 anet e2 d2 h2
      (by omega)
  obtain ⟨ev3, t3, f3f⟩ :=
    receiverStep_conn_fail_exit_ex ar2 anet e3 d3 (NewPusher cfg.sendPush name)
      h3 (by omega)
      (by rw [f2p, f1p, hp0])
  refine ⟨ev1 ++ (ev2 ++ ev3), ?_, ?_⟩
  · rw [runSteps_cons_continued _ _ _ _ _ _ t1,
      runSteps_cons_continued _ _ _ _ _ _ t2,
      runSteps_cons_exited _ _ _ _ _ _ t3]
  · rw [List.filter_append, List.filter_append, f1f, f2f, f3f]
    rw [f2n, f1n, hn0, f2m, f1m, hm0]
    rfl

/-- Witness for C3 at three concrete connect-failure cycles. -/
theorem C3_witness :
    ∃ events,
      runSteps (newAccountReceiver "acct" sampleCfg) (.response 200)
        [connFailCycle, connFailCycle, connFailCycle] =
        .exitedWith 1 events ∧
      events.filter isPushCall =
        [Event.pushCall alertTitle
          (alertMsg "acct" 3 ("连接失败: 连接失败: dial tcp: connection refused"))
          ((NewPusher sampleCfg.sendPush "acct").Push (.response 200) alertTitle
            (alertMsg "acct" 3
              ("连接失败: 连接失败: dial tcp: connection refused")))] :=
  C3_max_retries_alert_then_exit "acct" sampleCfg (.response 200)
    connFailCycle connFailCycle connFailCycle []
    "dial tcp: connection refused" "dial tcp: connection refused"
    "dial tcp: connection refused" rfl rfl rfl

/-- C6: messages are processed strictly in arrival order and one
message's failure never aborts the rest of the batch or the process: the
batch's events are the ordered concatenation of per-message events; in
the 2-message scenario (first push succeeds, second fails) exactly uid
11 is marked read while both pushes are attempted; and a cycle ending in
a new-mail signal continues the loop (no process exit) regardless of the
fetch oracles. -/
theorem C6_no_partial_batch_abort :
    (∀ (ar : AccountReceiver) (env : FetchProcessEnv) (folder : String)
       (messages : List RawMessage),
      (FetchMessages env.fetch folder 50 false).1 = .ok messages →
      messages ≠ [] →
      (fetchAndProcessMessages ar env folder).events =
        .logLine ("[" ++ ar.name ++ "] 收到 " ++ toString messages.length
          ++ " 封新邮件") ::
        (withIdx messages).flatMap
          (fun im => processMessage ar (env.perMessage im.1) (some im.2))) ∧
    (markedUids (fetchAndProcessMessages sampleReceiver twoMsgEnv
        "INBOX").events = [11] ∧
     ((fetchAndProcessMessages sampleReceiver twoMsgEnv "INBOX").events.filter
        isPushCall).length = 2) ∧
    (∀ (ar : AccountReceiver) (anet : PostFormResult) (env : CycleEnv),
      env.dial = none → env.loginResult = none →
      env.monitor.idleSelect = none →
      env.monitor.idleEvent = .updateArrived true →
      ar.config.folders ≠ [] →
      ∃ ar2 evts, receiverStep ar anet env = .continued ar2 evts) := by
  refine ⟨?_, ⟨?_, ?_⟩, ?_⟩
  · intro ar env folder messages hF hne
    unfold fetchAndProcessMessages
    rcases hFull : FetchMessages env.fetch folder 50 false with ⟨res, issued⟩
    rw [hFull] at hF
    simp only at hF
    subst hF
    have hlen : messages.length ≠ 0 :=
      fun hl => hne (List.length_eq_zero.mp hl)
    simp [hlen]
  · rfl
  · rfl
  · intro ar anet env h1 h2 h3 h4 h5
    have hnone : (run ar env).2.1 = none := by
      rw [run_monitor_error ar env h1 h2 h5, h3, h4]
      rfl
    exact ⟨_, _, receiverStep_of_run_none ar anet env hnone⟩

/-- Witness for C6 at a concrete new-mail cycle. -/
theorem C6_witness :
    (FetchMessages twoMsgEnv.fetch "INBOX" 50 false).1 =
      .ok [sampleMsgA, sampleMsgB] ∧
    (fetchAndProcessMessages sampleReceiver twoMsgEnv "INBOX").events =
      .logLine "[acct] 收到 2 封新邮件" ::
      (withIdx [sampleMsgA, sampleMsgB]).flatMap
        (fun im => processMessage sampleReceiver (twoMsgEnv.perMessage im.1)
          (some im.2)) ∧
    ∃ ar2 evts,
      receiverStep sampleReceiver (.response 200)
        { timeoutCycle with
            monitor := { timeoutMonitorEnv with
                           idleEvent := .updateArrived true } } =
        .continued ar2 evts := by
  refine ⟨rfl, ?_, ?_⟩
  · exact C6_no_partial_batch_abort.1 sampleReceiver twoMsgEnv "INBOX"
      [sampleMsgA, sampleMsgB] rfl (by decide)
  · exact C6_no_partial_batch_abort.2.2 sampleReceiver (.response 200) _
      rfl rfl rfl rfl (by decide)

/-- C1 counterexample: at a concrete monitoring cycle in which the IDLE
wait elapses its timeout with no update event and no transport error,
the wait's outcome is surfaced to the retry loop as the error
`IDLE 已结束` — not as a clean non-error timeout — and the
consecutive-failure counter is incremented from 0 to 1. -/
theorem C1_counterexample_timeout_increments :
    timeoutCycle.monitor.idleEvent = IdleEvent.timerFired ∧
    timeoutCycle.monitor.idleSelect = none ∧
    sampleReceiver.retries = 0 ∧
    (run sampleReceiver timeoutCycle).2.1 = some "IDLE 已结束" ∧
    (match receiverStep sampleReceiver (.response 200) timeoutCycle with
     | .continued ar2 _ => ar2.retries
     | .exited _ _ => 0) = 1 :=
  ⟨rfl, rfl, rfl, rfl, rfl⟩

/-- C1 (amended): when the IDLE wait elapses its configured timeout with
no update event and no transport error, the cycle reports the error
`IDLE 已结束` (not a clean non-error timeout); the retry loop then runs
`handleError`, incrementing the consecutive-failure counter by exactly 1
before sleeping and reconnecting (below the maximum the loop continues
with counter 1; the counter only returns to 0 at the next successful
login). -/
theorem C1_amended_timeout_counted_as_failure (ar : AccountReceiver)
    (env : CycleEnv) (anet : PostFormResult)
    (h1 : env.dial = none) (h2 : env.loginResult = none)
    (h3 : env.monitor.idleSelect = none)
    (h4 : env.monitor.idleEvent = .timerFired)
    (h5 : ar.config.folders ≠ []) (h6 : 1 < ar.maxRetries) :
    (run ar env).2.1 = some "IDLE 已结束" ∧
    ∃ ar2 evts, receiverStep ar anet env = .continued ar2 evts ∧
      ar2.retries = 1 := by
  have herr : (run ar env).2.1 = some "IDLE 已结束" := by
    rw [run_monitor_error ar env h1 h2 h5, h3, h4]
    rfl
  have hz := run_retries_zero ar env h1 h2
  have hmr := run_maxRetries ar env
  refine ⟨herr, ?_⟩
  unfold receiverStep
  rcases hr : run ar env with ⟨ar1, err, evts⟩
  rw [hr] at herr hz hmr
  simp only at herr hz hmr
  subst herr
  simp only [handleError, hz, hmr]
  rw [if_neg (by omega)]
  exact ⟨_, _, rfl, by simp⟩

/-- Witness for the amended C1 at a concrete clean-timeout cycle. -/
theorem C1_amended_witness :
    (run sampleReceiver timeoutCycle).2.1 = some "IDLE 已结束" ∧
    ∃ ar2 evts, receiverStep sampleReceiver (.response 201) timeoutCycle =
      .continued ar2 evts ∧ ar2.retries = 1 :=
  C1_amended_timeout_counted_as_failure sampleReceiver timeoutCycle
    (.response 201) rfl rfl rfl rfl (by decide) (by decide)

end MailReceiver
